import Mathlib

/-!
Shallow embedding of the `context-mcp-server` protocol core
(`src/protocol/request.rs`, `src/protocol/response.rs`, `src/server.rs`,
`src/handlers/*.rs`) together with theorems settling the frozen claims.

Modelling conventions:
* JSON values are the inductive `Json` below; JSON numbers are modelled as
  integers (no claim involves floating point).
* Filesystem paths are strings; `Path::join` is modelled as concatenation
  with a separator, and `Path::starts_with` on canonical paths as string
  prefix (the spec describes containment as "prefix match on the
  normalized path").
* Filesystem behaviour is an oracle structure `Fs`; each handler also
  returns the trace of filesystem operations it performed, so "no
  filesystem access before rejecting" is the trace being empty.
* `serde_json::to_string` of the concrete response structs is rendered by
  explicit string builders that follow serde's derived serializer (fields
  in declaration order, `rename_all = "snake_case"` for error codes,
  `skip_serializing_if` honoured).
-/

/-- Model of a `serde_json::Value`.  Numbers are integers; objects keep
key order as produced by the parser. -/
inductive Json where
  | null : Json
  | bool (b : Bool) : Json
  | num (n : Int) : Json
  | str (s : String) : Json
  | arr (elems : List Json) : Json
  | obj (fields : List (String × Json)) : Json

/-- Lookup of a key in a JSON object's field list (first occurrence), the
model of `serde_json::Value::get`. -/
def Json.getField : Json → String → Option Json
  | .obj fields, key => fields.lookup key
  | _, _ => none

/-- Keys of a JSON object, in serialization order (observation used to
state which keys a serialized value carries). -/
def Json.objKeys : Json → List String
  | .obj fields => fields.map Prod.fst
  | _ => []

/-- Model of `Value::as_str`. -/
def Json.asStr : Json → Option String
  | .str s => some s
  | _ => none

/-- Model of `Value::as_u64`: succeeds exactly on non-negative integers. -/
def Json.asU64 : Json → Option Nat
  | .num n => if 0 ≤ n then some n.toNat else none
  | _ => none

/-- Hex digit used by the JSON string escaper. -/
def hexDigit (n : Nat) : Char :=
  if n < 10 then Char.ofNat (48 + n) else Char.ofNat (87 + n)

/-- Four-digit hex rendering for `\uXXXX` escapes. -/
def hex4 (n : Nat) : String :=
  String.mk [hexDigit ((n / 4096) % 16), hexDigit ((n / 256) % 16),
             hexDigit ((n / 16) % 16), hexDigit (n % 16)]

/-- Escape one character the way `serde_json` does inside string literals. -/
def escapeJsonChar (c : Char) : String :=
  if c = '"' then "\\\""
  else if c = '\\' then "\\\\"
  else if c = '\n' then "\\n"
  else if c = '\r' then "\\r"
  else if c = '\t' then "\\t"
  else if c.toNat = 8 then "\\b"
  else if c.toNat = 12 then "\\f"
  else if c.toNat < 32 then "\\u" ++ hex4 c.toNat
  else String.singleton c

/-- Render a string as a JSON string literal, serde style. -/
def renderJsonString (s : String) : String :=
  "\"" ++ String.join (s.data.map escapeJsonChar) ++ "\""

-- ---------------------------------------------------------------------------
-- Error taxonomy (src/protocol/response.rs, domain layer)
-- ---------------------------------------------------------------------------

/-- MCP domain error code (`McpErrorCode` in response.rs). -/
inductive McpErrorCode where
  | CacheMissing | CacheInvalid | InvalidQuery | InvalidBudget
  | IoError | InternalError
deriving DecidableEq, Repr

/-- Wire name of a domain error code (serde `rename_all = "snake_case"`). -/
def McpErrorCode.wireName : McpErrorCode → String
  | .CacheMissing => "cache_missing"
  | .CacheInvalid => "cache_invalid"
  | .InvalidQuery => "invalid_query"
  | .InvalidBudget => "invalid_budget"
  | .IoError => "io_error"
  | .InternalError => "internal_error"

/-- Map a domain code to its JSON-RPC 2.0 numeric code (`json_rpc_code`). -/
def McpErrorCode.json_rpc_code : McpErrorCode → Int
  | .CacheMissing | .CacheInvalid => -32602
  | .InvalidQuery | .InvalidBudget => -32602
  | .IoError | .InternalError => -32603

/-- MCP error object (`McpError`). -/
structure McpError where
  code : McpErrorCode
  message : String
deriving DecidableEq, Repr

/-- Top-level MCP error response (`McpErrorResponse`). -/
structure McpErrorResponse where
  error : McpError
deriving DecidableEq, Repr

/-- Constructor `McpErrorResponse::new`. -/
def McpErrorResponse.new (code : McpErrorCode) (message : String) : McpErrorResponse :=
  ⟨⟨code, message⟩⟩

/-- Canonical message for a code (`McpErrorResponse::canonical`). -/
def McpErrorResponse.canonical (code : McpErrorCode) : McpErrorResponse :=
  McpErrorResponse.new code
    (match code with
     | .CacheMissing => "Cache does not exist"
     | .CacheInvalid => "Cache exists but is invalid"
     | .InvalidQuery => "Query is invalid"
     | .InvalidBudget => "Budget is invalid"
     | .IoError => "I/O error occurred"
     | .InternalError => "Internal error")

/-- Compact `serde_json::to_string` of an `McpErrorResponse`: fields in
declaration order, code rendered by its snake_case wire name. -/
def renderMcpErrorResponse (e : McpErrorResponse) : String :=
  "\x7b\"error\":\x7b\"code\":" ++ renderJsonString e.error.code.wireName ++
    ",\"message\":" ++ renderJsonString e.error.message ++ "\x7d\x7d"

-- ---------------------------------------------------------------------------
-- Tool result layer (src/protocol/response.rs)
-- ---------------------------------------------------------------------------

/-- One content block of a tool result (`ToolResultContent`). -/
structure ToolResultContent where
  content_type : String
  text : String
deriving DecidableEq, Repr

/-- MCP tool call result (`ToolResult`). -/
structure ToolResult where
  content : List ToolResultContent
  is_error : Bool
deriving DecidableEq, Repr

/-- Constructor `ToolResult::text`. -/
def ToolResult.text (t : String) : ToolResult :=
  ⟨[⟨"text", t⟩], false⟩

/-- Constructor `ToolResult::error`. -/
def ToolResult.error (t : String) : ToolResult :=
  ⟨[⟨"text", t⟩], true⟩

/-- Model of serde serialization of a content block. -/
def ToolResultContent.toJson (c : ToolResultContent) : Json :=
  .obj [("type", .str c.content_type), ("text", .str c.text)]

/-- Model of serde serialization of a `ToolResult` to a `serde_json::Value`
(the `serde_json::to_value` call in `dispatch`): the `isError` field is
renamed and skipped when false (`skip_serializing_if = "std::ops::Not::not"`). -/
def ToolResult.toJson (r : ToolResult) : Json :=
  .obj ([("content", .arr (r.content.map ToolResultContent.toJson))] ++
    (if r.is_error then [("isError", .bool true)] else []))

/-- Conversion `impl From<McpErrorResponse> for ToolResult`: the text block
is the JSON-serialized error followed by a newline (`format!("\x7bjson\x7d\n")`). -/
def toolResultOfMcpError (e : McpErrorResponse) : ToolResult :=
  ToolResult.error (renderMcpErrorResponse e ++ "\n")

-- ---------------------------------------------------------------------------
-- JSON-RPC envelopes (src/protocol/request.rs, response.rs)
-- ---------------------------------------------------------------------------

/-- JSON-RPC id: number or string (`RpcId`). -/
inductive RpcId where
  | number (n : Int) : RpcId
  | str (s : String) : RpcId
deriving DecidableEq, Repr

/-- JSON-RPC request envelope (`JsonRpcRequest`). -/
structure JsonRpcRequest where
  jsonrpc : String
  id : Option RpcId
  method : String
  params : Option Json

/-- JSON-RPC protocol-level error object (`JsonRpcError`). -/
structure JsonRpcError where
  code : Int
  message : String
  data : Option Json

/-- Constructor `JsonRpcError::parse_error`. -/
def JsonRpcError.parse_error : JsonRpcError := ⟨-32700, "Parse error", none⟩

/-- Constructor `JsonRpcError::invalid_request`. -/
def JsonRpcError.invalid_request : JsonRpcError := ⟨-32600, "Invalid Request", none⟩

/-- Constructor `JsonRpcError::invalid_request_with`. -/
def JsonRpcError.invalid_request_with (detail : String) : JsonRpcError :=
  ⟨-32600, detail, none⟩

/-- Constructor `JsonRpcError::method_not_found`. -/
def JsonRpcError.method_not_found (method : String) : JsonRpcError :=
  ⟨-32601, "Method not found: " ++ method, none⟩

/-- Constructor `JsonRpcError::invalid_params`. -/
def JsonRpcError.invalid_params (detail : String) : JsonRpcError :=
  ⟨-32602, detail, none⟩

/-- Constructor `JsonRpcError::internal_error`. -/
def JsonRpcError.internal_error (detail : String) : JsonRpcError :=
  ⟨-32603, detail, none⟩

/-- JSON-RPC response envelope (`JsonRpcResponse`). -/
structure JsonRpcResponse where
  jsonrpc : String
  id : Option RpcId
  result : Option Json
  error : Option JsonRpcError

/-- Constructor `JsonRpcResponse::success`. -/
def JsonRpcResponse.success (id : Option RpcId) (result : Json) : JsonRpcResponse :=
  ⟨"2.0", id, some result, none⟩

/-- Constructor `JsonRpcResponse::error`. -/
def JsonRpcResponse.mkError (id : Option RpcId) (err : JsonRpcError) : JsonRpcResponse :=
  ⟨"2.0", id, none, some err⟩

-- ---------------------------------------------------------------------------
-- Filesystem oracle
-- ---------------------------------------------------------------------------

/-- File type as reported by `std::fs::FileType` for a directory entry read
without following symlinks (so a symlink to a directory is `symlink`). -/
inductive FType where
  | dir | file | symlink | other
deriving DecidableEq, Repr

/-- Result of `std::fs::File::open` followed by reading: `ok (some j)` means
the file exists and its contents parse as the JSON value `j`; `ok none`
means it exists but is not valid JSON; the error cases carry the
`std::io::ErrorKind` distinction the handlers test for. -/
inductive OpenRes where
  | ok (content : Option Json)
  | errNotFound
  | errOther

/-- One directory entry as seen by `read_dir`.  `size = none` models a
failing `entry.metadata()` call. -/
structure DirEntry where
  name : String
  fileType : FType
  size : Option Nat
deriving Repr

/-- Result of `std::fs::symlink_metadata` on a path: `ok ft` carries the
file type it reports (symlinks are not followed). -/
inductive SymlinkMetaRes where
  | ok (ft : FType)
  | notFound
  | errOther
deriving DecidableEq, Repr

/-- Outcome of `selector.select` followed by `serde_json::to_string` in
`load_and_select`; the selection engine lives in the external
`context-core` crate, so its behaviour is an oracle producing either the
serialized selection JSON or one of the two failures the code maps to
`InternalError`. -/
inductive SelectRes where
  | ok (json : String)
  | errSelect
  | errSerialize
deriving DecidableEq, Repr

/-- Outcome of the `tokio::time::timeout(timeout, spawn_blocking(..))` race
in `resolve_context::handle`: the worker completes in time, the join fails,
or the timeout elapses. -/
inductive ExecOutcome where
  | completes
  | joinError
  | timesOut
deriving DecidableEq, Repr

/-- Oracle for the filesystem and external collaborators.  Entries in
`readDir` that are `none` model a failing `entry`/`file_type` read. -/
structure Fs where
  canonicalizePath : String → Option String
  isDir : String → Bool
  openFile : String → OpenRes
  readDir : String → Option (List (Option DirEntry))
  symlinkMeta : String → SymlinkMetaRes
  select : String → String → Nat → SelectRes
  exec : ExecOutcome

/-- Filesystem operations, recorded as a trace so that "no filesystem
access" is provable as an empty trace. -/
inductive FsOp where
  | canonicalizeOp (p : String)
  | isDirOp (p : String)
  | openOp (p : String)
  | readDirOp (p : String)
  | symlinkMetaOp (p : String)
deriving DecidableEq, Repr

/-- Model of `Path::join` with a relative right-hand side. -/
def pathJoin (root name : String) : String :=
  root ++ "/" ++ name

/-- Character-list substring scan backing `strContainsSub`. -/
def subListAt (pat : List Char) : List Char → Bool
  | [] => pat.isEmpty
  | c :: rest => pat.isPrefixOf (c :: rest) || subListAt pat rest

/-- Substring test (`str::contains` with a literal pattern). -/
def strContainsSub (s pat : String) : Bool :=
  subListAt pat.data s.data

/-- Prefix test on strings (`str::starts_with`). -/
def strStartsWith (s p : String) : Bool :=
  p.data.isPrefixOf s.data

/-- Model of `Path::starts_with` on canonicalized paths: textual prefix
containment on the normalized path. -/
def pathStartsWith (p q : String) : Bool :=
  strStartsWith p q

/-- Server configuration (`ServerConfig`); the timeout duration itself is
absorbed into the `Fs.exec` oracle. -/
structure ServerConfig where
  cache_root : String

-- ---------------------------------------------------------------------------
-- Path resolver (identical `resolve_cache_path` in
-- src/handlers/resolve_context.rs and src/handlers/inspect_cache.rs)
-- ---------------------------------------------------------------------------

/-- Name validation guard of `resolve_cache_path`: the name contains `..`
or starts with a forward or backward slash. -/
def badCacheName (cache_name : String) : Bool :=
  strContainsSub cache_name ".." || strStartsWith cache_name "/" ||
    strStartsWith cache_name "\\"

/-- Translation of `resolve_cache_path` (the function appears verbatim in
both resolve_context.rs and inspect_cache.rs).  Returns the result together
with the trace of filesystem operations performed, in order. -/
def resolve_cache_path (fs : Fs) (cache_root cache_name : String) :
    Except McpErrorResponse String × List FsOp :=
  if badCacheName cache_name then
    (.error (McpErrorResponse.canonical .CacheMissing), [])
  else
    let candidate := pathJoin cache_root cache_name
    match fs.canonicalizePath candidate with
    | none =>
      (.error (McpErrorResponse.canonical .CacheMissing), [.canonicalizeOp candidate])
    | some canonicalCand =>
      match fs.canonicalizePath cache_root with
      | none =>
        (.error (McpErrorResponse.canonical .IoError),
          [.canonicalizeOp candidate, .canonicalizeOp cache_root])
      | some root_canonical =>
        if ¬ pathStartsWith canonicalCand root_canonical then
          (.error (McpErrorResponse.canonical .CacheMissing),
            [.canonicalizeOp candidate, .canonicalizeOp cache_root])
        else if ¬ fs.isDir canonicalCand then
          (.error (McpErrorResponse.canonical .CacheMissing),
            [.canonicalizeOp candidate, .canonicalizeOp cache_root,
             .isDirOp canonicalCand])
        else
          (.ok canonicalCand,
            [.canonicalizeOp candidate, .canonicalizeOp cache_root,
             .isDirOp canonicalCand])

-- ---------------------------------------------------------------------------
-- resolve_context handler (src/handlers/resolve_context.rs)
-- ---------------------------------------------------------------------------

/-- Parameters for `context.resolve` (`ResolveContextParams`); `budget` is
an `i64`, modelled as an integer. -/
structure ResolveContextParams where
  cache : String
  query : String
  budget : Int
deriving Repr

/-- Modelled from the spec: the manifest structure `CacheManifest` lives in
the external `context-core` crate (not under src/); the spec describes it
as carrying a version identifier (string) and a document count
(non-negative integer), with a file listing elided here. -/
structure CacheManifest where
  cache_version : String
  document_count : Nat
deriving Repr

/-- Modelled from the spec: serde deserialization of `CacheManifest` from a
JSON value, requiring the two described fields with their types. -/
def decodeCacheManifest (j : Json) : Option CacheManifest :=
  match (j.getField "cache_version").bind Json.asStr,
        (j.getField "document_count").bind Json.asU64 with
  | some v, some n => some ⟨v, n⟩
  | _, _ => none

/-- Translation of `load_and_select` (resolve_context.rs): open and parse
the manifest, then delegate to the selection engine.  `serde_json
::from_reader::<CacheManifest>` fails when the contents are not JSON or do
not decode as a manifest. -/
def load_and_select (fs : Fs) (cache_path query_str : String) (budget : Nat) :
    Except McpErrorResponse String × List FsOp :=
  let manifest_path := pathJoin cache_path "manifest.json"
  match fs.openFile manifest_path with
  | .errNotFound =>
    (.error (McpErrorResponse.canonical .CacheInvalid), [.openOp manifest_path])
  | .errOther =>
    (.error (McpErrorResponse.canonical .IoError), [.openOp manifest_path])
  | .ok content =>
    match content.bind decodeCacheManifest with
    | none =>
      (.error (McpErrorResponse.canonical .CacheInvalid), [.openOp manifest_path])
    | some _manifest =>
      match fs.select cache_path query_str budget with
      | .errSelect =>
        (.error (McpErrorResponse.canonical .InternalError), [.openOp manifest_path])
      | .errSerialize =>
        (.error (McpErrorResponse.canonical .InternalError), [.openOp manifest_path])
      | .ok json =>
        (.ok (json ++ "\n"), [.openOp manifest_path])

/-- Translation of `resolve_context::handle`: budget validation, path
resolution, then the worker race (timeout and join failure map to
`InternalError`; the abandoned worker's operations are not observed). -/
def resolveContextHandle (fs : Fs) (config : ServerConfig)
    (params : ResolveContextParams) : ToolResult × List FsOp :=
  if params.budget < 0 then
    (toolResultOfMcpError (McpErrorResponse.canonical .InvalidBudget), [])
  else
    let budget := params.budget.toNat
    match resolve_cache_path fs config.cache_root params.cache with
    | (.error err, tr) => (toolResultOfMcpError err, tr)
    | (.ok cache_path, tr) =>
      match fs.exec with
      | .completes =>
        match load_and_select fs cache_path params.query budget with
        | (.ok json, tr2) => (ToolResult.text json, tr ++ tr2)
        | (.error mcp_err, tr2) => (toolResultOfMcpError mcp_err, tr ++ tr2)
      | .joinError =>
        (toolResultOfMcpError (McpErrorResponse.canonical .InternalError), tr)
      | .timesOut =>
        (toolResultOfMcpError (McpErrorResponse.canonical .InternalError), tr)

-- ---------------------------------------------------------------------------
-- inspect_cache handler (src/handlers/inspect_cache.rs)
-- ---------------------------------------------------------------------------

/-- Parameters for `context.inspect_cache` (`InspectCacheParams`). -/
structure InspectCacheParams where
  cache : String
deriving Repr

/-- Response payload of `inspect_cache` (`InspectCacheResponse`). -/
structure InspectCacheResponse where
  cache_version : String
  document_count : Nat
  total_bytes : Nat
  valid : Bool
deriving DecidableEq, Repr

/-- Compact `serde_json::to_string` of an `InspectCacheResponse`, fields in
declaration order. -/
def renderInspectCacheResponse (r : InspectCacheResponse) : String :=
  "\x7b\"cache_version\":" ++ renderJsonString r.cache_version ++
    ",\"document_count\":" ++ toString r.document_count ++
    ",\"total_bytes\":" ++ toString r.total_bytes ++
    ",\"valid\":" ++ (if r.valid then "true" else "false") ++ "\x7d"

/-- Loop body of `total_bytes_non_recursive`: skip symlinks, add the sizes
of regular files; a failing entry read or metadata call aborts with an
I/O error (`?` operator). -/
def sumEntryBytes : List (Option DirEntry) → Except Unit Nat
  | [] => .ok 0
  | none :: _ => .error ()
  | some e :: rest =>
    if e.fileType = .symlink then sumEntryBytes rest
    else if e.fileType = .file then
      match e.size with
      | none => .error ()
      | some n => (sumEntryBytes rest).map (n + ·)
    else sumEntryBytes rest

/-- Translation of `total_bytes_non_recursive` (inspect_cache.rs). -/
def total_bytes_non_recursive (fs : Fs) (root : String) : Except Unit Nat :=
  match fs.readDir root with
  | none => .error ()
  | some entries => sumEntryBytes entries

/-- Translation of `inspect` (inspect_cache.rs): open and parse the
manifest, degrade to `valid:false` on structural problems, escalate
non-not-found open failures to `IoError`, then sum file sizes when still
valid.  The final `serde_json::to_string` of the payload cannot fail, so
its `InternalError` branch is unreachable in the model. -/
def inspect (fs : Fs) (cache_path : String) :
    Except McpErrorResponse String × List FsOp :=
  let manifest_path := pathJoin cache_path "manifest.json"
  match fs.openFile manifest_path with
  | .errOther =>
    (.error (McpErrorResponse.canonical .IoError), [.openOp manifest_path])
  | .errNotFound =>
    (.ok (renderInspectCacheResponse ⟨"", 0, 0, false⟩), [.openOp manifest_path])
  | .ok content =>
    let fields :=
      match content with
      | none => (("" : String), (0 : Nat), false)
      | some value =>
        let versionRes := (value.getField "cache_version").bind Json.asStr
        let countRes := (value.getField "document_count").bind Json.asU64
        (versionRes.getD "", countRes.getD 0,
          versionRes.isSome && countRes.isSome)
    match fields with
    | (cache_version, document_count, valid) =>
      if valid then
        match total_bytes_non_recursive fs cache_path with
        | .ok total =>
          (.ok (renderInspectCacheResponse
              ⟨cache_version, document_count, total, true⟩),
            [.openOp manifest_path, .readDirOp cache_path])
        | .error _ =>
          (.ok (renderInspectCacheResponse
              ⟨cache_version, document_count, 0, false⟩),
            [.openOp manifest_path, .readDirOp cache_path])
      else
        (.ok (renderInspectCacheResponse ⟨cache_version, document_count, 0, false⟩),
          [.openOp manifest_path])

/-- Translation of `inspect_cache::handle`: resolve the path, then inspect. -/
def inspectCacheHandle (fs : Fs) (config : ServerConfig)
    (params : InspectCacheParams) : ToolResult × List FsOp :=
  match resolve_cache_path fs config.cache_root params.cache with
  | (.error err, tr) => (toolResultOfMcpError err, tr)
  | (.ok cache_path, tr) =>
    match inspect fs cache_path with
    | (.ok json, tr2) => (ToolResult.text json, tr ++ tr2)
    | (.error mcp_err, tr2) => (toolResultOfMcpError mcp_err, tr ++ tr2)

-- ---------------------------------------------------------------------------
-- list_caches handler (src/handlers/list_caches.rs)
-- ---------------------------------------------------------------------------

/-- One entry of the `list_caches` response (`CacheEntry`). -/
structure CacheEntry where
  path : String
  has_manifest : Bool
deriving DecidableEq, Repr

/-- Compact `serde_json::to_string` of a `CacheEntry`. -/
def renderCacheEntry (e : CacheEntry) : String :=
  "\x7b\"path\":" ++ renderJsonString e.path ++
    ",\"has_manifest\":" ++ (if e.has_manifest then "true" else "false") ++ "\x7d"

/-- Compact `serde_json::to_string` of a `ListCachesResponse`. -/
def renderListCachesResponse (caches : List CacheEntry) : String :=
  "\x7b\"caches\":[" ++ String.intercalate "," (caches.map renderCacheEntry) ++ "]\x7d"

/-- Manifest probe of the `list_caches` loop: `symlink_metadata` on
`<root>/<entry>/manifest.json`, then `meta.is_file()`; not-found means no
manifest, any other failure is escalated by the caller. -/
def manifestProbePath (cache_root name : String) : String :=
  pathJoin (pathJoin cache_root name) "manifest.json"

/-- Loop of `enumerate_caches`: keep directories, probe for the manifest,
abort with `IoError` on an entry read failure or a non-not-found
`symlink_metadata` failure. -/
def collectCaches (fs : Fs) (cache_root : String) :
    List (Option DirEntry) → Except McpErrorResponse (List CacheEntry)
  | [] => .ok []
  | none :: _ => .error (McpErrorResponse.canonical .IoError)
  | some e :: rest =>
    if e.fileType ≠ .dir then collectCaches fs cache_root rest
    else
      match fs.symlinkMeta (manifestProbePath cache_root e.name) with
      | .errOther => .error (McpErrorResponse.canonical .IoError)
      | .notFound =>
        (collectCaches fs cache_root rest).map (⟨e.name, false⟩ :: ·)
      | .ok ft =>
        (collectCaches fs cache_root rest).map (⟨e.name, ft = .file⟩ :: ·)

/-- Lexicographic comparison of character lists by code point; on UTF-8
strings this coincides with Rust's byte-wise `String::cmp` order. -/
def charListLe : List Char → List Char → Bool
  | [], _ => true
  | _ :: _, [] => false
  | a :: as, b :: bs =>
    if a.toNat < b.toNat then true
    else if b.toNat < a.toNat then false
    else charListLe as bs

/-- Byte-wise ascending string order (`a.path.cmp(&b.path)` being
`Less` or `Equal`). -/
def strLe (a b : String) : Bool :=
  charListLe a.data b.data

/-- Ordering used by the `caches.sort_by(|a, b| a.path.cmp(&b.path))` call. -/
def cacheEntryLe (a b : CacheEntry) : Prop :=
  strLe a.path b.path = true

instance : DecidableRel cacheEntryLe :=
  fun a b => inferInstanceAs (Decidable (strLe a.path b.path = true))


/-- Translation of `enumerate_caches` (list_caches.rs): root check,
directory read, collection loop, stable sort by name, serialization. -/
def enumerate_caches (fs : Fs) (cache_root : String) :
    Except McpErrorResponse String :=
  if ¬ fs.isDir cache_root then .error (McpErrorResponse.canonical .CacheMissing)
  else
    match fs.readDir cache_root with
    | none => .error (McpErrorResponse.canonical .IoError)
    | some entries =>
      (collectCaches fs cache_root entries).map
        (fun caches => renderListCachesResponse (caches.insertionSort cacheEntryLe))

/-- Translation of `list_caches::handle`. -/
def listCachesHandle (fs : Fs) (config : ServerConfig) : ToolResult :=
  match enumerate_caches fs config.cache_root with
  | .ok json => ToolResult.text json
  | .error mcp_err => toolResultOfMcpError mcp_err

-- ---------------------------------------------------------------------------
-- Dispatcher (src/handlers/mod.rs)
-- ---------------------------------------------------------------------------

/-- Parameters for `tools/call` (`ToolCallParams`). -/
structure ToolCallParams where
  name : String
  arguments : Option Json

/-- Serde deserialization of `ToolCallParams` from a JSON value: an object
with a required string `name` and optional `arguments` (unknown fields are
allowed by serde's defaults). -/
def decodeToolCallParams (v : Json) : Option ToolCallParams :=
  match (v.getField "name").bind Json.asStr with
  | some n =>
    match v with
    | .obj _ => some ⟨n, v.getField "arguments"⟩
    | _ => none
  | none => none

/-- Serde deserialization of `ResolveContextParams`: required string
`cache`, string `query`, integer `budget` (i64; the 64-bit range bound is
not modelled). -/
def decodeResolveContextParams (v : Json) : Option ResolveContextParams :=
  match (v.getField "cache").bind Json.asStr,
        (v.getField "query").bind Json.asStr,
        v.getField "budget" with
  | some c, some q, some (.num b) => some ⟨c, q, b⟩
  | _, _, _ => none

/-- Serde deserialization of `InspectCacheParams`: required string `cache`. -/
def decodeInspectCacheParams (v : Json) : Option InspectCacheParams :=
  match (v.getField "cache").bind Json.asStr with
  | some c => some ⟨c⟩
  | none => none

/-- Detail text of a serde deserialization error; serde's human-readable
message is environment-specific and no claim depends on it, so it is a
fixed placeholder in the model. -/
def serdeErrorDetail : String := "deserialization error"

/-- Result of `health::handle` (src/handlers/health.rs). -/
def healthHandle : ToolResult :=
  ToolResult.text "\x7b\"status\":\"ok\"\x7d"

/-- Translation of `dispatch_tool_call` (mod.rs): sub-dispatch on the tool
name, argument deserialization failures become tool-level errors, and the
fall-through arm reports the unknown tool name. -/
def dispatch_tool_call (fs : Fs) (config : ServerConfig)
    (params : ToolCallParams) : ToolResult :=
  if params.name = "context.resolve" then
    match params.arguments with
    | none => ToolResult.error "Missing arguments for context.resolve"
    | some v =>
      match decodeResolveContextParams v with
      | none =>
        ToolResult.error ("Invalid arguments for context.resolve: " ++ serdeErrorDetail)
      | some p => (resolveContextHandle fs config p).1
  else if params.name = "context.list_caches" then listCachesHandle fs config
  else if params.name = "context.inspect_cache" then
    match params.arguments with
    | none => ToolResult.error "Missing arguments for context.inspect_cache"
    | some v =>
      match decodeInspectCacheParams v with
      | none =>
        ToolResult.error ("Invalid arguments for context.inspect_cache: " ++ serdeErrorDetail)
      | some p => (inspectCacheHandle fs config p).1
  else if params.name = "health" then healthHandle
  else ToolResult.error ("Unknown tool: " ++ params.name)

/-- Package version baked in via `env!("CARGO_PKG_VERSION")`; the manifest
carrying the exact value is not part of the provided sources and no claim
depends on it. -/
def cargoPkgVersion : String := "0.1.0"

/-- Payload answered to `initialize` (the `serde_json::json!` literal in
`dispatch`). -/
def initializeResult : Json :=
  .obj [("protocolVersion", .str "2024-11-05"),
        ("capabilities", .obj [("tools", .obj [])]),
        ("serverInfo", .obj [("name", .str "mcp-context-server"),
                             ("version", .str cargoPkgVersion)])]

/-- Catalog entry schema helper: a string-typed property with a
description. -/
def schemaStringProp (desc : String) : Json :=
  .obj [("type", .str "string"), ("description", .str desc)]

/-- Static tool catalog answered to `tools/list` (the `serde_json::json!`
literal in `dispatch`). -/
def toolsListResult : Json :=
  .obj [("tools", .arr
    [ .obj [("name", .str "context.resolve"),
            ("description", .str "Resolve context from a cache using a query and token budget"),
            ("inputSchema", .obj
              [("type", .str "object"),
               ("required", .arr [.str "cache", .str "query", .str "budget"]),
               ("properties", .obj
                 [("cache", schemaStringProp "Cache directory name (relative to CONTEXT_CACHE_ROOT)"),
                  ("query", schemaStringProp "Search query for context selection"),
                  ("budget", .obj
                    [("type", .str "integer"),
                     ("description", .str "Maximum token budget for selected context"),
                     ("minimum", .num 0)])])])],
      .obj [("name", .str "context.list_caches"),
            ("description", .str "List available context caches under the server's cache root"),
            ("inputSchema", .obj
              [("type", .str "object"), ("properties", .obj [])])],
      .obj [("name", .str "context.inspect_cache"),
            ("description", .str "Inspect cache structure, metadata, and validity"),
            ("inputSchema", .obj
              [("type", .str "object"),
               ("required", .arr [.str "cache"]),
               ("properties", .obj
                 [("cache", schemaStringProp "Cache directory name (relative to CONTEXT_CACHE_ROOT)")])])]])]

/-- Translation of `dispatch` (mod.rs): exact-match routing on the method
string; `None` means no response is written. -/
def dispatch (fs : Fs) (config : ServerConfig) (req : JsonRpcRequest) :
    Option JsonRpcResponse :=
  if req.method = "initialize" then
    some (JsonRpcResponse.success req.id initializeResult)
  else if req.method = "notifications/initialized" then none
  else if req.method = "ping" then
    some (JsonRpcResponse.success req.id (.obj []))
  else if req.method = "tools/list" then
    some (JsonRpcResponse.success req.id toolsListResult)
  else if req.method = "tools/call" then
    match req.params with
    | none =>
      some (JsonRpcResponse.mkError req.id
        (JsonRpcError.invalid_params "Missing params for tools/call"))
    | some v =>
      match decodeToolCallParams v with
      | none =>
        some (JsonRpcResponse.mkError req.id
          (JsonRpcError.invalid_params ("Invalid tools/call params: " ++ serdeErrorDetail)))
      | some params =>
        some (JsonRpcResponse.success req.id
          (dispatch_tool_call fs config params).toJson)
  else some (JsonRpcResponse.mkError req.id (JsonRpcError.method_not_found req.method))

-- ---------------------------------------------------------------------------
-- Transport loop step (src/server.rs, McpServer::run lines 73-103)
-- ---------------------------------------------------------------------------

/-- One iteration of `McpServer::run` on an already-parsed request:
jsonrpc version check, initialization gate, dispatch, handshake flip.
Returns the response written (if any) and the new `initialized` flag. -/
def serverStep (fs : Fs) (config : ServerConfig) (initialized : Bool)
    (req : JsonRpcRequest) : Option JsonRpcResponse × Bool :=
  if req.jsonrpc ≠ "2.0" then
    (some (JsonRpcResponse.mkError req.id JsonRpcError.invalid_request), initialized)
  else if ¬ initialized ∧ req.method ≠ "initialize" then
    if req.id.isNone then (none, initialized)
    else
      (some (JsonRpcResponse.mkError req.id
        (JsonRpcError.invalid_request_with "Server not initialized")), initialized)
  else
    (dispatch fs config req, initialized || (req.method == "initialize"))

/-- Handshake flag after processing a whole input sequence (folding
`serverStep` over the parsed requests of the session). -/
def serverRunFlag (fs : Fs) (config : ServerConfig) :
    Bool → List JsonRpcRequest → Bool
  | initialized, [] => initialized
  | initialized, req :: rest =>
    serverRunFlag fs config (serverStep fs config initialized req).2 rest

-- ---------------------------------------------------------------------------
-- Concrete filesystem fixtures used by witnesses and counterexamples
-- ---------------------------------------------------------------------------

/-- Filesystem where nothing exists. -/
def fsTrivial : Fs :=
  ⟨fun _ => none, fun _ => false, fun _ => .errNotFound, fun _ => none,
   fun _ => .notFound, fun _ _ _ => .errSelect, .completes⟩

/-- Filesystem where every open fails with a non-not-found OS error. -/
def fsOpenErr : Fs :=
  ⟨fun _ => none, fun _ => false, fun _ => .errOther, fun _ => none,
   fun _ => .notFound, fun _ _ _ => .errSelect, .completes⟩

/-- Filesystem where every file exists but holds invalid JSON. -/
def fsNotJson : Fs :=
  ⟨fun _ => none, fun _ => false, fun _ => .ok none, fun _ => none,
   fun _ => .notFound, fun _ _ _ => .errSelect, .completes⟩

/-- Filesystem whose manifests parse as JSON but carry only a
`cache_version` string, no `document_count`. -/
def fsPartialManifest : Fs :=
  ⟨fun _ => none, fun _ => false,
   fun _ => .ok (some (.obj [("cache_version", .str "v1")])),
   fun _ => none, fun _ => .notFound, fun _ _ _ => .errSelect, .completes⟩

/-- Filesystem with a cache root holding two directories (one with a
regular manifest, one with a symlinked manifest), a plain file, and a
symlink. -/
def fsEnum : Fs :=
  ⟨fun _ => none, fun p => p = "root",
   fun _ => .errNotFound,
   fun p =>
     if p = "root" then
       some [some ⟨"zeta", .dir, none⟩, some ⟨"alpha", .dir, none⟩,
             some ⟨"notes.txt", .file, some 3⟩, some ⟨"link", .symlink, none⟩]
     else none,
   fun p =>
     if p = "root/alpha/manifest.json" then .ok .file
     else if p = "root/zeta/manifest.json" then .ok .symlink
     else .notFound,
   fun _ _ _ => .errSelect, .completes⟩

-- ---------------------------------------------------------------------------
-- Helper lemmas
-- ---------------------------------------------------------------------------

/-- Unfolding characterization of `charListLe` on two cons cells. -/
theorem charListLe_cons_iff (x y : Char) (xs ys : List Char) :
    charListLe (x :: xs) (y :: ys) = true ↔
      (x.toNat < y.toNat ∨ (x.toNat = y.toNat ∧ charListLe xs ys = true)) := by
  show (if x.toNat < y.toNat then true
        else if y.toNat < x.toNat then false
        else charListLe xs ys) = true ↔ _
  split_ifs with h1 h2
  · simp [h1]
  · simp only [Bool.false_eq_true, false_iff]
    intro h
    rcases h with h | ⟨h, _⟩
    · exact h1 h
    · omega
  · have hxy : x.toNat = y.toNat := by omega
    simp [hxy, h1]

/-- Totality of the byte-wise order. -/
theorem charListLe_total (a b : List Char) :
    charListLe a b = true ∨ charListLe b a = true := by
  induction a generalizing b with
  | nil => left; rfl
  | cons x xs ih =>
    cases b with
    | nil => right; rfl
    | cons y ys =>
      rcases Nat.lt_trichotomy x.toNat y.toNat with h | h | h
      · left; exact (charListLe_cons_iff ..).mpr (Or.inl h)
      · rcases ih ys with h2 | h2
        · left; exact (charListLe_cons_iff ..).mpr (Or.inr ⟨h, h2⟩)
        · right; exact (charListLe_cons_iff ..).mpr (Or.inr ⟨h.symm, h2⟩)
      · right; exact (charListLe_cons_iff ..).mpr (Or.inl h)

/-- Transitivity of the byte-wise order. -/
theorem charListLe_trans (a b c : List Char) (hab : charListLe a b = true)
    (hbc : charListLe b c = true) : charListLe a c = true := by
  induction a generalizing b c with
  | nil => rfl
  | cons x xs ih =>
    cases b with
    | nil => exact absurd hab (by simp [charListLe])
    | cons y ys =>
      cases c with
      | nil => exact absurd hbc (by simp [charListLe])
      | cons z zs =>
        rcases (charListLe_cons_iff ..).mp hab with h1 | ⟨h1, h1r⟩ <;>
          rcases (charListLe_cons_iff ..).mp hbc with h2 | ⟨h2, h2r⟩
        · exact (charListLe_cons_iff ..).mpr (Or.inl (h1.trans h2))
        · exact (charListLe_cons_iff ..).mpr (Or.inl (h2 ▸ h1))
        · exact (charListLe_cons_iff ..).mpr (Or.inl (h1 ▸ h2))
        · exact (charListLe_cons_iff ..).mpr (Or.inr ⟨h1.trans h2, ih ys zs h1r h2r⟩)

/-- Once the handshake flag is set, no step resets it. -/
theorem serverStep_flag_mono (fs : Fs) (config : ServerConfig)
    (req : JsonRpcRequest) : (serverStep fs config true req).2 = true := by
  unfold serverStep
  split_ifs with h1 h2 h3 <;> simp_all

/-- Once `Ready`, the flag stays `Ready` over any remaining input. -/
theorem serverRunFlag_ready (fs : Fs) (config : ServerConfig)
    (reqs : List JsonRpcRequest) : serverRunFlag fs config true reqs = true := by
  induction reqs with
  | nil => rfl
  | cons req rest ih =>
    unfold serverRunFlag
    rw [serverStep_flag_mono fs config req]
    exact ih

/-- A failing entry read anywhere in the directory listing forces the
`IoError` outcome of the `enumerate_caches` loop. -/
theorem collectCaches_mem_none (fs : Fs) (cache_root : String)
    (entryOpts : List (Option DirEntry)) (h : none ∈ entryOpts) :
    collectCaches fs cache_root entryOpts =
      .error (McpErrorResponse.canonical .IoError) := by
  induction entryOpts with
  | nil => cases h
  | cons e rest ih =>
    cases e with
    | none => rfl
    | some d =>
      have hrest : none ∈ rest := by
        rcases List.mem_cons.mp h with h1 | h1
        · cases h1
        · exact h1
      unfold collectCaches
      split_ifs with hft
      · exact ih hrest
      · cases hmeta : fs.symlinkMeta (manifestProbePath cache_root d.name) <;>
          simp [ih hrest, Except.map]

/-- On an error-free listing, the `enumerate_caches` loop keeps exactly the
directory entries, probing each one's `manifest.json` with
`symlink_metadata` (`has_manifest` is true exactly when the probe reports a
regular file). -/
theorem collectCaches_map_some (fs : Fs) (cache_root : String)
    (entries : List DirEntry)
    (h : ∀ e ∈ entries, e.fileType = .dir →
      fs.symlinkMeta (manifestProbePath cache_root e.name) ≠ .errOther) :
    collectCaches fs cache_root (entries.map some) =
      .ok ((entries.filter (fun e => e.fileType = .dir)).map
        (fun e => ⟨e.name,
          decide (fs.symlinkMeta (manifestProbePath cache_root e.name) = .ok .file)⟩)) := by
  induction entries with
  | nil => rfl
  | cons e rest ih =>
    have hrest : ∀ d ∈ rest, d.fileType = .dir →
        fs.symlinkMeta (manifestProbePath cache_root d.name) ≠ .errOther :=
      fun d hd => h d (List.mem_cons_of_mem e hd)
    simp only [List.map_cons]
    unfold collectCaches
    split_ifs with hft
    · rw [ih hrest]
      have : (e :: rest).filter (fun d => d.fileType = FType.dir) =
          rest.filter (fun d => d.fileType = FType.dir) := by
        simp [List.filter_cons, hft]
      rw [this]
    · push_neg at hft
      have hkeep : (e :: rest).filter (fun d => d.fileType = FType.dir) =
          e :: rest.filter (fun d => d.fileType = FType.dir) := by
        simp [List.filter_cons, hft]
      rw [hkeep]
      cases hmeta : fs.symlinkMeta (manifestProbePath cache_root e.name) with
      | errOther => exact absurd hmeta (h e (List.mem_cons_self e rest) hft)
      | notFound => rw [ih hrest]; simp [hmeta, Except.map]
      | ok ft => rw [ih hrest]; cases ft <;> simp [hmeta, Except.map]

/-- Rejection branch of `resolve_cache_path`: a bad name short-circuits
with `CacheMissing` and an empty filesystem trace. -/
theorem resolve_cache_path_badName (fs : Fs) (root name : String)
    (h : badCacheName name = true) :
    resolve_cache_path fs root name =
      (.error (McpErrorResponse.canonical .CacheMissing), []) := by
  unfold resolve_cache_path
  rw [if_pos h]

-- ---------------------------------------------------------------------------
-- Claims
-- ---------------------------------------------------------------------------

/-- C1: a cache name containing ".." or beginning with a forward or
backward slash makes the path-resolution routine shared verbatim by
`context.resolve` and `context.inspect_cache` reject with the canonical
`CacheMissing` error ("Cache does not exist"), and both handlers surface
exactly that domain error with an empty filesystem trace — no filesystem
operation happens before the rejection (for `context.resolve` under a
non-negative budget, the earlier budget check being disjoint). -/
theorem claim_C1_traversal_rejected_before_fs (fs : Fs) (config : ServerConfig)
    (cache_root cache_name query : String) (budget : Int)
    (hname : badCacheName cache_name = true) (hb : 0 ≤ budget) :
    resolve_cache_path fs cache_root cache_name =
      (.error (McpErrorResponse.canonical .CacheMissing), []) ∧
    (McpErrorResponse.canonical .CacheMissing).error.message = "Cache does not exist" ∧
    inspectCacheHandle fs config ⟨cache_name⟩ =
      (toolResultOfMcpError (McpErrorResponse.canonical .CacheMissing), []) ∧
    resolveContextHandle fs config ⟨cache_name, query, budget⟩ =
      (toolResultOfMcpError (McpErrorResponse.canonical .CacheMissing), []) := by
  refine ⟨resolve_cache_path_badName fs cache_root cache_name hname, rfl, ?_, ?_⟩
  · unfold inspectCacheHandle
    rw [resolve_cache_path_badName fs config.cache_root cache_name hname]
  · unfold resolveContextHandle
    rw [if_neg (not_lt.mpr hb)]
    rw [resolve_cache_path_badName fs config.cache_root cache_name hname]

/-- Witness for C1 at the concrete traversal name "../etc". -/
theorem claim_C1_witness :
    badCacheName "../etc" = true ∧ (0 : Int) ≤ 0 ∧
    (resolve_cache_path fsTrivial "root" "../etc" =
      (.error (McpErrorResponse.canonical .CacheMissing), []) ∧
    (McpErrorResponse.canonical .CacheMissing).error.message = "Cache does not exist" ∧
    inspectCacheHandle fsTrivial ⟨"root"⟩ ⟨"../etc"⟩ =
      (toolResultOfMcpError (McpErrorResponse.canonical .CacheMissing), []) ∧
    resolveContextHandle fsTrivial ⟨"root"⟩ ⟨"../etc", "q", 0⟩ =
      (toolResultOfMcpError (McpErrorResponse.canonical .CacheMissing), [])) :=
  ⟨by decide, by decide,
   claim_C1_traversal_rejected_before_fs fsTrivial ⟨"root"⟩ "root" "../etc" "q" 0
     (by decide) (by decide)⟩

/-- C6: inside `context.resolve`, once the path is resolved, a manifest
whose open fails with the not-found kind yields `CacheInvalid`, a manifest
that opens but fails `serde_json` parsing (not JSON, or not the manifest
shape) yields `CacheInvalid`, and any other OS error on open yields
`IoError`. -/
theorem claim_C6_resolve_manifest_errors (fs : Fs) (cache_path query : String)
    (budget : Nat) :
    (fs.openFile (pathJoin cache_path "manifest.json") = .errNotFound →
      load_and_select fs cache_path query budget =
        (.error (McpErrorResponse.canonical .CacheInvalid),
         [.openOp (pathJoin cache_path "manifest.json")])) ∧
    (∀ c, fs.openFile (pathJoin cache_path "manifest.json") = .ok c →
      c.bind decodeCacheManifest = none →
      load_and_select fs cache_path query budget =
        (.error (McpErrorResponse.canonical .CacheInvalid),
         [.openOp (pathJoin cache_path "manifest.json")])) ∧
    (fs.openFile (pathJoin cache_path "manifest.json") = .errOther →
      load_and_select fs cache_path query budget =
        (.error (McpErrorResponse.canonical .IoError),
         [.openOp (pathJoin cache_path "manifest.json")])) := by
  refine ⟨fun h => ?_, fun c h hparse => ?_, fun h => ?_⟩
  · simp only [load_and_select, h]
  · simp only [load_and_select, h, hparse]
  · simp only [load_and_select, h]

/-- Witness for C6: a missing manifest, an unparseable manifest, and a
permission-style open failure, each on a concrete filesystem. -/
theorem claim_C6_witness :
    fsTrivial.openFile (pathJoin "root/c" "manifest.json") = .errNotFound ∧
    load_and_select fsTrivial "root/c" "q" 5 =
      (.error (McpErrorResponse.canonical .CacheInvalid),
       [.openOp (pathJoin "root/c" "manifest.json")]) ∧
    fsNotJson.openFile (pathJoin "root/c" "manifest.json") = .ok none ∧
    load_and_select fsNotJson "root/c" "q" 5 =
      (.error (McpErrorResponse.canonical .CacheInvalid),
       [.openOp (pathJoin "root/c" "manifest.json")]) ∧
    fsOpenErr.openFile (pathJoin "root/c" "manifest.json") = .errOther ∧
    load_and_select fsOpenErr "root/c" "q" 5 =
      (.error (McpErrorResponse.canonical .IoError),
       [.openOp (pathJoin "root/c" "manifest.json")]) :=
  ⟨rfl,
   (claim_C6_resolve_manifest_errors fsTrivial "root/c" "q" 5).1 rfl,
   rfl,
   (claim_C6_resolve_manifest_errors fsNotJson "root/c" "q" 5).2.1 none rfl rfl,
   rfl,
   (claim_C6_resolve_manifest_errors fsOpenErr "root/c" "q" 5).2.2 rfl⟩

/-- C7: a negative budget makes `context.resolve` return the canonical
`InvalidBudget` domain error as a tool-level error (isError true) with an
empty filesystem trace — no path resolution and no manifest read happen. -/
theorem claim_C7_negative_budget_rejected_before_fs (fs : Fs)
    (config : ServerConfig) (params : ResolveContextParams)
    (h : params.budget < 0) :
    resolveContextHandle fs config params =
      (toolResultOfMcpError (McpErrorResponse.canonical .InvalidBudget), []) ∧
    (toolResultOfMcpError (McpErrorResponse.canonical .InvalidBudget)).is_error = true ∧
    (McpErrorResponse.canonical .InvalidBudget).error.message = "Budget is invalid" ∧
    (McpErrorResponse.canonical .InvalidBudget).error.code.wireName = "invalid_budget" := by
  refine ⟨?_, rfl, rfl, rfl⟩
  unfold resolveContextHandle
  rw [if_pos h]

/-- Witness for C7 at budget -1. -/
theorem claim_C7_witness :
    (-1 : Int) < 0 ∧
    (resolveContextHandle fsTrivial ⟨"root"⟩ ⟨"my-cache", "q", -1⟩ =
      (toolResultOfMcpError (McpErrorResponse.canonical .InvalidBudget), []) ∧
    (toolResultOfMcpError (McpErrorResponse.canonical .InvalidBudget)).is_error = true ∧
    (McpErrorResponse.canonical .InvalidBudget).error.message = "Budget is invalid" ∧
    (McpErrorResponse.canonical .InvalidBudget).error.code.wireName = "invalid_budget") :=
  ⟨by decide,
   claim_C7_negative_budget_rejected_before_fs fsTrivial ⟨"root"⟩
     ⟨"my-cache", "q", -1⟩ (by decide)⟩

/-- C9 counterexample: the text block produced for a domain error is not
exactly the JSON serialization of the error object — the conversion appends
a trailing newline. -/
theorem claim_C9_counterexample :
    (toolResultOfMcpError (McpErrorResponse.canonical .CacheMissing)).content =
      [⟨"text", renderMcpErrorResponse (McpErrorResponse.canonical .CacheMissing) ++ "\n"⟩] ∧
    renderMcpErrorResponse (McpErrorResponse.canonical .CacheMissing) ++ "\n" ≠
      renderMcpErrorResponse (McpErrorResponse.canonical .CacheMissing) :=
  ⟨rfl, by decide⟩

/-- C9 (amended): a domain error rendered as a tool-level failure has
isError true and a single text content block holding the JSON serialization
of the domain error object followed by exactly one newline; for each kind
the serialization carries the snake_case code and its fixed canonical
message. -/
theorem claim_C9_domain_error_tool_rendering (e : McpErrorResponse) :
    toolResultOfMcpError e = ToolResult.error (renderMcpErrorResponse e ++ "\n") ∧
    (toolResultOfMcpError e).is_error = true ∧
    (toolResultOfMcpError e).content =
      [⟨"text", renderMcpErrorResponse e ++ "\n"⟩] ∧
    (∀ c : McpErrorCode,
      renderMcpErrorResponse (McpErrorResponse.canonical c) =
        "\x7b\"error\":\x7b\"code\":\"" ++ c.wireName ++ "\",\"message\":\"" ++
          (McpErrorResponse.canonical c).error.message ++ "\"\x7d\x7d") := by
  refine ⟨rfl, rfl, rfl, fun c => ?_⟩
  cases c <;> rfl

/-- C10: serializing a tool result emits the `isError` key exactly when the
result is a failure (value `true`), while the `content` array is always
present; a successful result's serialization carries no `isError` key at
all. -/
theorem claim_C10_isError_key_iff_failure (r : ToolResult) :
    r.toJson.getField "isError" =
      (if r.is_error then some (.bool true) else none) ∧
    r.toJson.getField "content" =
      some (.arr (r.content.map ToolResultContent.toJson)) ∧
    r.toJson.objKeys =
      (if r.is_error then ["content", "isError"] else ["content"]) := by
  cases hr : r.is_error <;>
    simp [ToolResult.toJson, Json.getField, Json.objKeys, hr, List.lookup]

/-- C2: while the handshake flag is unset, a jsonrpc-2.0 request whose
method is not "initialize" is rejected — with the protocol-level error of
code -32600 and message "Server not initialized" echoing the id when one is
present, and with no response at all when the id is absent — the flag flips
to ready exactly when an "initialize" request is routed, and once ready it
stays ready for every later step of the process. -/
theorem claim_C2_handshake_gate (fs : Fs) (config : ServerConfig)
    (req : JsonRpcRequest) (h20 : req.jsonrpc = "2.0") :
    (req.method ≠ "initialize" → req.id = none →
      serverStep fs config false req = (none, false)) ∧
    (∀ i, req.method ≠ "initialize" → req.id = some i →
      serverStep fs config false req =
        (some (JsonRpcResponse.mkError (some i)
          (JsonRpcError.invalid_request_with "Server not initialized")), false)) ∧
    (JsonRpcError.invalid_request_with "Server not initialized").code = -32600 ∧
    (JsonRpcError.invalid_request_with "Server not initialized").message =
      "Server not initialized" ∧
    (req.method = "initialize" → (serverStep fs config false req).2 = true) ∧
    (∀ req2 : JsonRpcRequest, (serverStep fs config true req2).2 = true) ∧
    (∀ reqs : List JsonRpcRequest, serverRunFlag fs config true reqs = true) := by
  refine ⟨fun hm hid => ?_, fun i hm hid => ?_, rfl, rfl, fun hm => ?_,
    serverStep_flag_mono fs config, serverRunFlag_ready fs config⟩
  · simp [serverStep, h20, hm, hid]
  · simp [serverStep, h20, hm, hid]
  · simp [serverStep, h20, hm]

/-- Witness for C2: an uninitialized server drops an id-less "tools/list",
rejects a numbered "tools/list" with the not-initialized error, and flips
the flag on "initialize". -/
theorem claim_C2_witness :
    serverStep fsTrivial ⟨"root"⟩ false ⟨"2.0", none, "tools/list", none⟩ =
      (none, false) ∧
    serverStep fsTrivial ⟨"root"⟩ false
        ⟨"2.0", some (.number 1), "tools/list", none⟩ =
      (some (JsonRpcResponse.mkError (some (.number 1))
        (JsonRpcError.invalid_request_with "Server not initialized")), false) ∧
    (serverStep fsTrivial ⟨"root"⟩ false ⟨"2.0", none, "initialize", none⟩).2 = true :=
  ⟨(claim_C2_handshake_gate fsTrivial ⟨"root"⟩
      ⟨"2.0", none, "tools/list", none⟩ rfl).1 (by decide) rfl,
   (claim_C2_handshake_gate fsTrivial ⟨"root"⟩
      ⟨"2.0", some (.number 1), "tools/list", none⟩ rfl).2.1 (.number 1)
      (by decide) rfl,
   (claim_C2_handshake_gate fsTrivial ⟨"root"⟩
      ⟨"2.0", none, "initialize", none⟩ rfl).2.2.2.2.1 rfl⟩

/-- C3: evaluation of the server step at id-less requests after
initialization: a "ping" notification receives a success response (with the
id omitted) and an unknown-method notification receives an error response,
so the code does emit responses — including errors — to notifications,
contrary to the envelope contract the claim states. -/
theorem claim_C3_notifications_get_responses :
    serverStep fsTrivial ⟨"root"⟩ true ⟨"2.0", none, "ping", none⟩ =
      (some (JsonRpcResponse.success none (.obj [])), true) ∧
    (serverStep fsTrivial ⟨"root"⟩ true ⟨"2.0", none, "ping", none⟩).1.isSome = true ∧
    serverStep fsTrivial ⟨"root"⟩ true ⟨"2.0", none, "unknown/method", none⟩ =
      (some (JsonRpcResponse.mkError none
        (JsonRpcError.method_not_found "unknown/method")), true) :=
  ⟨rfl, rfl, rfl⟩

/-- C4 counterexample: "health" is not one of the three catalog tools, yet
`tools/call` with that name does not produce the "Unknown tool" error — it
dispatches to the undocumented health handler and succeeds. -/
theorem claim_C4_counterexample_health_tool :
    ("health" ≠ "context.resolve" ∧ "health" ≠ "context.list_caches" ∧
      "health" ≠ "context.inspect_cache") ∧
    dispatch_tool_call fsTrivial ⟨"root"⟩ ⟨"health", none⟩ =
      ToolResult.text "\x7b\"status\":\"ok\"\x7d" ∧
    dispatch_tool_call fsTrivial ⟨"root"⟩ ⟨"health", none⟩ ≠
      ToolResult.error ("Unknown tool: " ++ "health") ∧
    (dispatch_tool_call fsTrivial ⟨"root"⟩ ⟨"health", none⟩).is_error = false :=
  ⟨⟨by decide, by decide, by decide⟩, rfl, by decide, rfl⟩

/-- C4 (amended): for every `tools/call` whose name is neither one of the
three catalog tools nor the undocumented "health" tool, the tool result has
isError true with the single text block "Unknown tool: {name}", delivered
inside a successful JSON-RPC envelope. -/
theorem claim_C4_unknown_tool_error (fs : Fs) (config : ServerConfig)
    (p : ToolCallParams)
    (h1 : p.name ≠ "context.resolve") (h2 : p.name ≠ "context.list_caches")
    (h3 : p.name ≠ "context.inspect_cache") (h4 : p.name ≠ "health") :
    dispatch_tool_call fs config p =
      ToolResult.error ("Unknown tool: " ++ p.name) ∧
    (dispatch_tool_call fs config p).is_error = true ∧
    (dispatch_tool_call fs config p).content =
      [⟨"text", "Unknown tool: " ++ p.name⟩] ∧
    (∀ id v, decodeToolCallParams v = some p →
      dispatch fs config ⟨"2.0", id, "tools/call", some v⟩ =
        some (JsonRpcResponse.success id
          (ToolResult.error ("Unknown tool: " ++ p.name)).toJson)) := by
  have hd : dispatch_tool_call fs config p =
      ToolResult.error ("Unknown tool: " ++ p.name) := by
    unfold dispatch_tool_call
    rw [if_neg h1, if_neg h2, if_neg h3, if_neg h4]
  refine ⟨hd, by rw [hd]; rfl, by rw [hd]; rfl, fun id v hdec => ?_⟩
  simp [dispatch, hdec, hd]

/-- Witness for C4 at the concrete unknown name "context.unknown". -/
theorem claim_C4_witness :
    dispatch_tool_call fsTrivial ⟨"root"⟩ ⟨"context.unknown", none⟩ =
      ToolResult.error ("Unknown tool: " ++ "context.unknown") ∧
    dispatch fsTrivial ⟨"root"⟩
        ⟨"2.0", some (.number 7), "tools/call",
         some (.obj [("name", .str "context.unknown")])⟩ =
      some (JsonRpcResponse.success (some (.number 7))
        (ToolResult.error ("Unknown tool: " ++ "context.unknown")).toJson) :=
  ⟨(claim_C4_unknown_tool_error fsTrivial ⟨"root"⟩ ⟨"context.unknown", none⟩
      (by decide) (by decide) (by decide) (by decide)).1,
   (claim_C4_unknown_tool_error fsTrivial ⟨"root"⟩ ⟨"context.unknown", none⟩
      (by decide) (by decide) (by decide) (by decide)).2.2.2
      (some (.number 7)) (.obj [("name", .str "context.unknown")]) rfl⟩

/-- C5 counterexample: a manifest that parses as JSON and carries a string
`cache_version` but no `document_count` degrades to valid:false, yet the
reported `cache_version` is the parsed value "v1", not the empty string the
claim requires for all degraded results. -/
theorem claim_C5_counterexample_partial_manifest :
    fsPartialManifest.openFile (pathJoin "root/c" "manifest.json") =
      .ok (some (.obj [("cache_version", .str "v1")])) ∧
    (inspect fsPartialManifest "root/c").1 =
      .ok (renderInspectCacheResponse ⟨"v1", 0, 0, false⟩) ∧
    renderInspectCacheResponse ⟨"v1", 0, 0, false⟩ ≠
      renderInspectCacheResponse ⟨"", 0, 0, false⟩ :=
  ⟨rfl, rfl, by decide⟩

/-- C5 (amended): on a resolved cache directory, an absent or unparseable
manifest yields a successful result with valid:false and all fields zeroed;
a manifest missing either required field (or carrying it with the wrong
type) yields a successful result with valid:false and total_bytes 0, where
each required field reports its parsed value when extraction succeeded and
the zero/empty default otherwise; an OS-level open failure whose kind is
not not-found yields the `IoError` domain error instead. -/
theorem claim_C5_inspect_degradation (fs : Fs) (cache_path : String) :
    (fs.openFile (pathJoin cache_path "manifest.json") = .errNotFound →
      inspect fs cache_path =
        (.ok (renderInspectCacheResponse ⟨"", 0, 0, false⟩),
         [.openOp (pathJoin cache_path "manifest.json")])) ∧
    (fs.openFile (pathJoin cache_path "manifest.json") = .ok none →
      inspect fs cache_path =
        (.ok (renderInspectCacheResponse ⟨"", 0, 0, false⟩),
         [.openOp (pathJoin cache_path "manifest.json")])) ∧
    (∀ j, fs.openFile (pathJoin cache_path "manifest.json") = .ok (some j) →
      ((j.getField "cache_version").bind Json.asStr = none ∨
       (j.getField "document_count").bind Json.asU64 = none) →
      inspect fs cache_path =
        (.ok (renderInspectCacheResponse
            ⟨((j.getField "cache_version").bind Json.asStr).getD "",
             ((j.getField "document_count").bind Json.asU64).getD 0, 0, false⟩),
         [.openOp (pathJoin cache_path "manifest.json")])) ∧
    (fs.openFile (pathJoin cache_path "manifest.json") = .errOther →
      inspect fs cache_path =
        (.error (McpErrorResponse.canonical .IoError),
         [.openOp (pathJoin cache_path "manifest.json")])) := by
  refine ⟨fun h => ?_, fun h => ?_, fun j h hmiss => ?_, fun h => ?_⟩
  · simp only [inspect, h]
  · simp only [inspect, h]; rfl
  · rcases hmiss with hv | hc
    · simp only [inspect, h, hv]
      simp [Option.isSome]
    · simp only [inspect, h, hc]
      cases hver : (j.getField "cache_version").bind Json.asStr <;>
        simp [Option.isSome]
  · simp only [inspect, h]

/-- Witness for C5: the three degradation shapes and the escalation, on
concrete filesystems. -/
theorem claim_C5_witness :
    fsTrivial.openFile (pathJoin "root/c" "manifest.json") = .errNotFound ∧
    inspect fsTrivial "root/c" =
      (.ok (renderInspectCacheResponse ⟨"", 0, 0, false⟩),
       [.openOp (pathJoin "root/c" "manifest.json")]) ∧
    fsNotJson.openFile (pathJoin "root/c" "manifest.json") = .ok none ∧
    inspect fsNotJson "root/c" =
      (.ok (renderInspectCacheResponse ⟨"", 0, 0, false⟩),
       [.openOp (pathJoin "root/c" "manifest.json")]) ∧
    inspect fsPartialManifest "root/c" =
      (.ok (renderInspectCacheResponse ⟨"v1", 0, 0, false⟩),
       [.openOp (pathJoin "root/c" "manifest.json")]) ∧
    fsOpenErr.openFile (pathJoin "root/c" "manifest.json") = .errOther ∧
    inspect fsOpenErr "root/c" =
      (.error (McpErrorResponse.canonical .IoError),
       [.openOp (pathJoin "root/c" "manifest.json")]) :=
  ⟨rfl,
   (claim_C5_inspect_degradation fsTrivial "root/c").1 rfl,
   rfl,
   (claim_C5_inspect_degradation fsNotJson "root/c").2.1 rfl,
   (claim_C5_inspect_degradation fsPartialManifest "root/c").2.2.1
     (.obj [("cache_version", .str "v1")]) rfl (Or.inr rfl),
   rfl,
   (claim_C5_inspect_degradation fsOpenErr "root/c").2.2.2 rfl⟩

/-- C8: `context.list_caches` reports exactly the immediate subdirectory
entries of the cache root (entries whose reported file type is not `dir` —
files, symlinks, others — are excluded, with no recursion), sorted
ascending by name in byte-wise order, each carrying `has_manifest` true
exactly when `symlink_metadata` on `<root>/<name>/manifest.json` reports a
regular file (so a symlinked manifest counts as absent); a missing root
yields `CacheMissing` and any read failure during enumeration yields
`IoError`. -/
theorem claim_C8_list_caches_enumeration (fs : Fs) (cache_root : String) :
    (fs.isDir cache_root = false →
      enumerate_caches fs cache_root =
        .error (McpErrorResponse.canonical .CacheMissing)) ∧
    (fs.isDir cache_root = true → fs.readDir cache_root = none →
      enumerate_caches fs cache_root =
        .error (McpErrorResponse.canonical .IoError)) ∧
    (∀ entryOpts : List (Option DirEntry), fs.isDir cache_root = true →
      fs.readDir cache_root = some entryOpts → none ∈ entryOpts →
      enumerate_caches fs cache_root =
        .error (McpErrorResponse.canonical .IoError)) ∧
    (∀ r, fs.symlinkMeta r = .ok .symlink →
      decide (fs.symlinkMeta r = .ok .file) = false) ∧
    (∀ entries : List DirEntry, fs.isDir cache_root = true →
      fs.readDir cache_root = some (entries.map some) →
      (∀ e ∈ entries, e.fileType = .dir →
        fs.symlinkMeta (manifestProbePath cache_root e.name) ≠ .errOther) →
      ∃ sortedEntries,
        enumerate_caches fs cache_root =
          .ok (renderListCachesResponse sortedEntries) ∧
        List.Sorted cacheEntryLe sortedEntries ∧
        List.Perm sortedEntries
          ((entries.filter (fun e => e.fileType = .dir)).map
            (fun e => ⟨e.name,
              decide (fs.symlinkMeta (manifestProbePath cache_root e.name) =
                .ok .file)⟩))) := by
  haveI : IsTotal CacheEntry cacheEntryLe :=
    ⟨fun a b => charListLe_total a.path.data b.path.data⟩
  haveI : IsTrans CacheEntry cacheEntryLe :=
    ⟨fun _ _ _ h h2 => charListLe_trans _ _ _ h h2⟩
  refine ⟨fun h => ?_, fun h1 h2 => ?_, fun entryOpts h1 h2 hmem => ?_,
    fun r hr => by rw [hr]; rfl, fun entries h1 h2 hprobe => ?_⟩
  · simp [enumerate_caches, h]
  · simp [enumerate_caches, h1, h2]
  · simp [enumerate_caches, h1, h2, collectCaches_mem_none fs cache_root entryOpts hmem,
      Except.map]
  · refine ⟨List.insertionSort cacheEntryLe
      ((entries.filter (fun e => e.fileType = .dir)).map
        (fun e => ⟨e.name,
          decide (fs.symlinkMeta (manifestProbePath cache_root e.name) =
            .ok .file)⟩)), ?_, ?_, ?_⟩
    · simp [enumerate_caches, h1, h2,
        collectCaches_map_some fs cache_root entries hprobe, Except.map]
    · exact List.sorted_insertionSort cacheEntryLe _
    · exact List.perm_insertionSort cacheEntryLe _

/-- Witness for C8 on a concrete root holding two directories (one with a
regular manifest, one with a symlinked manifest), a plain file and a
symlink, plus the error shapes on degenerate roots. -/
theorem claim_C8_witness :
    fsEnum.isDir "root" = true ∧
    fsEnum.isDir "other" = false ∧
    enumerate_caches fsEnum "other" =
      .error (McpErrorResponse.canonical .CacheMissing) ∧
    (∃ sortedEntries,
      enumerate_caches fsEnum "root" =
        .ok (renderListCachesResponse sortedEntries) ∧
      List.Sorted cacheEntryLe sortedEntries ∧
      List.Perm sortedEntries
        (([⟨"zeta", .dir, none⟩, ⟨"alpha", .dir, none⟩,
           ⟨"notes.txt", .file, some 3⟩,
           ⟨"link", .symlink, none⟩].filter
            (fun e : DirEntry => e.fileType = .dir)).map
          (fun e => ⟨e.name,
            decide (fsEnum.symlinkMeta (manifestProbePath "root" e.name) =
              .ok .file)⟩))) :=
  ⟨rfl, rfl,
   (claim_C8_list_caches_enumeration fsEnum "other").1 rfl,
   (claim_C8_list_caches_enumeration fsEnum "root").2.2.2.2
     [⟨"zeta", .dir, none⟩, ⟨"alpha", .dir, none⟩,
      ⟨"notes.txt", .file, some 3⟩, ⟨"link", .symlink, none⟩]
     rfl rfl (by decide)⟩
